import Mathlib

/-!
Verification of the multi-agent orchestrator core: a shallow embedding of
the agent lifecycle wrapper (`orchestrator/agent.py`), the task router
(`orchestrator/router.py`), the priority scheduler (`orchestrator/scheduler.py`
with CPython's `heapq` push/pop), the device model (`orchestrator/device.py`)
and the orchestrator registry/dispatch layer (`orchestrator/core.py`), with
theorems settling the behavioural claims about them.

Modelling conventions: Python exceptions become `Except PyErr`; wall-clock
timestamps become `ℚ` seconds; Python floats become `ℚ`; Python dicts used as
registries become association lists mutated by the same operations the source
performs; the outcome of a domain handler / network transport is passed in as
an explicit `Except` value since the core treats it as opaque.
-/

/-- A Python exception value, as seen by the orchestrator core. -/
inductive PyErr where
  | valueError (msg : String)
  | connectionError (msg : String)
  | exogenous (name : String)
  deriving Repr, DecidableEq

/-- `AgentStatus` from `orchestrator/agent.py`. -/
inductive AgentStatus where
  | idle
  | running
  | busy
  | error
  | stopped
  deriving Repr, DecidableEq

/-- The `_metrics` dict of `AgentBase`. -/
structure AgentMetrics where
  tasks_completed : Nat
  tasks_failed : Nat
  last_task_at : Option ℚ
  deriving Repr, DecidableEq

/-- The mutable state of an `AgentBase` instance. -/
structure AgentState where
  agent_id : String
  agent_type : String
  status : AgentStatus
  metrics : AgentMetrics
  deriving Repr, DecidableEq

namespace AgentBase

/-- `AgentBase.execute` from `orchestrator/agent.py`: sets status Busy and
stamps `last_task_at`, runs the domain handler (whose outcome is the
`handler` argument), then on success increments `tasks_completed` and resets
status to Idle returning the result, and on failure increments `tasks_failed`,
sets status to Error and re-raises. -/
def execute {α : Type} (a : AgentState) (now : ℚ) (handler : Except PyErr α) :
    Except PyErr α × AgentState :=
  let a1 : AgentState :=
    { a with status := AgentStatus.busy,
             metrics := { a.metrics with last_task_at := some now } }
  match handler with
  | Except.ok v =>
      (Except.ok v,
        { a1 with status := AgentStatus.idle,
                  metrics := { a1.metrics with
                    tasks_completed := a1.metrics.tasks_completed + 1 } })
  | Except.error e =>
      (Except.error e,
        { a1 with status := AgentStatus.error,
                  metrics := { a1.metrics with
                    tasks_failed := a1.metrics.tasks_failed + 1 } })

end AgentBase

namespace FrequencyAgent

/-- `FrequencyAgent.TASKS` from `agents/frequency_agent.py`. -/
def TASKS : List String :=
  ["scan", "lock", "fine_tune", "set_frequency", "get_frequency",
   "hop_channel", "sync_fleet"]

/-- The outcomes of the seven task handlers of `FrequencyAgent`
(their bodies are domain logic outside the core; the dispatcher treats
them as opaque computations). -/
structure Handlers (α : Type) where
  scan : Except PyErr α
  lock : Except PyErr α
  fine_tune : Except PyErr α
  set_frequency : Except PyErr α
  get_frequency : Except PyErr α
  hop_channel : Except PyErr α
  sync_fleet : Except PyErr α

/-- `FrequencyAgent._execute` from `agents/frequency_agent.py`: the if-chain
over the task name, raising `ValueError("Unknown task: ...")` when no branch
matches. -/
def execImpl {α : Type} (h : Handlers α) (task : String) : Except PyErr α :=
  if task = "scan" then h.scan
  else if task = "lock" then h.lock
  else if task = "fine_tune" then h.fine_tune
  else if task = "set_frequency" then h.set_frequency
  else if task = "get_frequency" then h.get_frequency
  else if task = "hop_channel" then h.hop_channel
  else if task = "sync_fleet" then h.sync_fleet
  else Except.error (PyErr.valueError ("Unknown task: " ++ task))

end FrequencyAgent

/-- `DeviceStatus` from `orchestrator/device.py`. -/
inductive DeviceStatus where
  | unknown
  | online
  | offline
  | updating
  | error
  deriving Repr, DecidableEq

/-- `DeviceCapability` from `orchestrator/device.py`. -/
inductive DeviceCapability where
  | wifi
  | ble
  | gps
  | gnss
  | lora
  deriving Repr, DecidableEq

/-- The state of an `ESP32Device` instance. -/
structure Device where
  device_id : String
  name : String
  ip_address : Option String
  mac_address : Option String
  capabilities : List DeviceCapability
  status : DeviceStatus
  firmware_version : String
  current_frequency : ℚ
  rssi : Option Int
  last_seen : Option ℚ
  telemetry : List (String × String)
  deriving Repr, DecidableEq

/-- Python truthiness of `not self.ip_address`: `None` and the empty string
are falsy. -/
def pyNoAddress : Option String → Bool
  | none => true
  | some s => s = ""

namespace ESP32Device

/-- `ESP32Device.ping` from `orchestrator/device.py`.  `transport` is the
outcome of the subprocess probe: an exception, or the truth of
`proc.returncode == 0`.  All exceptions are caught, so the function is total
and returns a `Bool` together with the updated device state. -/
def ping (d : Device) (transport : Except PyErr Bool) (now : ℚ) :
    Bool × Device :=
  if pyNoAddress d.ip_address then
    (false, { d with status := DeviceStatus.offline })
  else
    match transport with
    | Except.error _ => (false, { d with status := DeviceStatus.offline })
    | Except.ok online =>
        (online,
          { d with
              status := if online then DeviceStatus.online else DeviceStatus.offline,
              last_seen := if online then some now else d.last_seen })

end ESP32Device

/-- Claim C1: for every agent and every task whose domain handler returns
normally, `AgentBase.execute` increments `tasks_completed` by exactly 1,
leaves `tasks_failed` unchanged, sets the agent's status to Idle, and returns
the handler's result. -/
theorem claim_C1 {α : Type} (a : AgentState) (now : ℚ) (v : α) :
    (AgentBase.execute a now (Except.ok v)).1 = Except.ok v ∧
    (AgentBase.execute a now (Except.ok v)).2.metrics.tasks_completed
      = a.metrics.tasks_completed + 1 ∧
    (AgentBase.execute a now (Except.ok v)).2.metrics.tasks_failed
      = a.metrics.tasks_failed ∧
    (AgentBase.execute a now (Except.ok v)).2.status = AgentStatus.idle := by
  refine ⟨rfl, rfl, rfl, rfl⟩

/-- Claim C2: for every agent and every task whose domain handler raises —
including `FrequencyAgent`'s raise of `ValueError` on an unsupported task
name — `AgentBase.execute` increments `tasks_failed` by exactly 1, never
increments `tasks_completed`, sets the status to Error, and propagates the
error to the caller. -/
theorem claim_C2 {α : Type} (a : AgentState) (now : ℚ) (e : PyErr) :
    (AgentBase.execute (α := α) a now (Except.error e)).1 = Except.error e ∧
    (AgentBase.execute (α := α) a now (Except.error e)).2.metrics.tasks_failed
      = a.metrics.tasks_failed + 1 ∧
    (AgentBase.execute (α := α) a now (Except.error e)).2.metrics.tasks_completed
      = a.metrics.tasks_completed ∧
    (AgentBase.execute (α := α) a now (Except.error e)).2.status
      = AgentStatus.error ∧
    ∀ (h : FrequencyAgent.Handlers α) (task : String),
      task ∉ FrequencyAgent.TASKS →
      FrequencyAgent.execImpl h task
        = Except.error (PyErr.valueError ("Unknown task: " ++ task)) := by
  refine ⟨rfl, rfl, rfl, rfl, ?_⟩
  intro h task htask
  simp only [FrequencyAgent.TASKS, List.mem_cons, List.not_mem_nil, or_false,
    not_or] at htask
  obtain ⟨h1, h2, h3, h4, h5, h6, h7⟩ := htask
  simp [FrequencyAgent.execImpl, h1, h2, h3, h4, h5, h6, h7]

/-- Witness for claim C2 at a concrete agent and an unsupported task name. -/
theorem claim_C2_witness :
    (AgentBase.execute (α := Nat)
        ⟨"a1", "frequency_agent", AgentStatus.idle, ⟨3, 1, none⟩⟩ 0
        (Except.error (PyErr.valueError "boom"))).2.metrics.tasks_failed = 2 ∧
    FrequencyAgent.execImpl
        (⟨Except.ok 0, Except.ok 0, Except.ok 0, Except.ok 0, Except.ok 0,
          Except.ok 0, Except.ok 0⟩ : FrequencyAgent.Handlers Nat) "bogus"
      = Except.error (PyErr.valueError ("Unknown task: " ++ "bogus")) := by
  have h := claim_C2 (α := Nat)
    ⟨"a1", "frequency_agent", AgentStatus.idle, ⟨3, 1, none⟩⟩ 0
    (PyErr.valueError "boom")
  exact ⟨h.2.1, h.2.2.2.2
    ⟨Except.ok 0, Except.ok 0, Except.ok 0, Except.ok 0, Except.ok 0,
     Except.ok 0, Except.ok 0⟩ "bogus" (by decide)⟩

/-- Claim C9: `ESP32Device.ping` never throws (it is a total function into
`Bool × Device`): with no configured address, or on any transport failure or
non-zero exit, it returns `false` and sets the status to Offline; on a
successful probe it returns `true`, sets the status to Online and updates
`last_seen`. -/
theorem claim_C9 (d : Device) (transport : Except PyErr Bool) (now : ℚ) :
    (pyNoAddress d.ip_address = true →
      ESP32Device.ping d transport now
        = (false, { d with status := DeviceStatus.offline })) ∧
    (pyNoAddress d.ip_address = false →
      (∀ e, transport = Except.error e →
        ESP32Device.ping d transport now
          = (false, { d with status := DeviceStatus.offline })) ∧
      (transport = Except.ok false →
        ESP32Device.ping d transport now
          = (false, { d with status := DeviceStatus.offline })) ∧
      (transport = Except.ok true →
        ESP32Device.ping d transport now
          = (true, { d with status := DeviceStatus.online,
                            last_seen := some now }))) := by
  constructor
  · intro hno
    simp [ESP32Device.ping, hno]
  · intro hyes
    refine ⟨?_, ?_, ?_⟩
    · intro e he
      subst he
      simp [ESP32Device.ping, hyes]
    · intro he
      subst he
      simp [ESP32Device.ping, hyes]
    · intro he
      subst he
      simp [ESP32Device.ping, hyes]

/-- Witness for claim C9 on a concrete device with an address and a
successful probe. -/
theorem claim_C9_witness :
    pyNoAddress (some "192.168.0.7") = false ∧
    ESP32Device.ping
        ⟨"esp-1", "node", some "192.168.0.7", none, [DeviceCapability.wifi],
         DeviceStatus.unknown, "0.0.0", 2400000000, none, none, []⟩
        (Except.ok true) 5
      = (true,
         ⟨"esp-1", "node", some "192.168.0.7", none, [DeviceCapability.wifi],
          DeviceStatus.online, "0.0.0", 2400000000, none, some 5, []⟩) := by
  refine ⟨by decide, ?_⟩
  have h := claim_C9
    ⟨"esp-1", "node", some "192.168.0.7", none, [DeviceCapability.wifi],
     DeviceStatus.unknown, "0.0.0", 2400000000, none, none, []⟩
    (Except.ok true) 5
  exact (h.2 (by decide)).2.2 rfl

/-- Lexicographic `<=` on code-point lists: Python's `str` comparison,
used by `sorted` on the `(-score, agent_id)` sort keys in
`TaskRouter.select`. -/
def charsLe : List Char → List Char → Bool
  | [], _ => true
  | _ :: _, [] => false
  | a :: as, b :: bs =>
      if a.toNat < b.toNat then true
      else if b.toNat < a.toNat then false
      else charsLe as bs

/-- Python string `<=` (code-point lexicographic). -/
def strLe (s t : String) : Bool :=
  charsLe s.data t.data

theorem charsLe_refl (s : List Char) : charsLe s s = true := by
  induction s with
  | nil => rfl
  | cons a as ih => simp [charsLe, ih]

theorem strLe_refl (s : String) : strLe s s = true :=
  charsLe_refl s.data

theorem charsLe_total (a b : List Char) :
    charsLe a b = true ∨ charsLe b a = true := by
  induction a generalizing b with
  | nil => left; rfl
  | cons x xs ih =>
    cases b with
    | nil => right; rfl
    | cons y ys =>
      rcases Nat.lt_trichotomy x.toNat y.toNat with hxy | hxy | hxy
      · left; simp [charsLe, hxy]
      · rcases ih ys with h | h
        · left; simp [charsLe, hxy, h]
        · right; simp [charsLe, hxy.symm, h]
      · right; simp [charsLe, hxy]

theorem charsLe_trans (a b c : List Char) (h1 : charsLe a b = true)
    (h2 : charsLe b c = true) : charsLe a c = true := by
  induction a generalizing b c with
  | nil => rfl
  | cons x xs ih =>
    cases b with
    | nil => simp [charsLe] at h1
    | cons y ys =>
      cases c with
      | nil => simp [charsLe] at h2
      | cons z zs =>
        rcases Nat.lt_trichotomy x.toNat y.toNat with hxy | hxy | hxy
        · rcases Nat.lt_trichotomy y.toNat z.toNat with hyz | hyz | hyz
          · simp [charsLe, hxy.trans hyz]
          · simp [charsLe, hyz ▸ hxy]
          · simp [charsLe, Nat.lt_asymm hyz, hyz] at h2
        · rcases Nat.lt_trichotomy y.toNat z.toNat with hyz | hyz | hyz
          · simp [charsLe, hxy ▸ hyz]
          · have hxz : x.toNat = z.toNat := hxy.trans hyz
            simp [charsLe, hxy, hyz, hxz] at h1 h2 ⊢
            exact ih ys zs h1 h2
          · simp [charsLe, Nat.lt_asymm hyz, hyz] at h2
        · simp [charsLe, Nat.lt_asymm hxy, hxy] at h1

/-- The comparison performed by `sorted(..., key=lambda t: (-t[0], t[1]))`:
lexicographic on a `(negated score, agent_id)` pair. -/
def keyLe (x y : ℚ × String) : Bool :=
  if x.1 < y.1 then true
  else if y.1 < x.1 then false
  else strLe x.2 y.2

theorem keyLe_trans (x y z : ℚ × String) (h1 : keyLe x y = true)
    (h2 : keyLe y z = true) : keyLe x z = true := by
  rcases lt_trichotomy x.1 y.1 with hxy | hxy | hxy
  · rcases lt_trichotomy y.1 z.1 with hyz | hyz | hyz
    · simp [keyLe, hxy.trans hyz]
    · simp [keyLe, hyz ▸ hxy]
    · simp [keyLe, lt_asymm hyz, hyz] at h2
  · rcases lt_trichotomy y.1 z.1 with hyz | hyz | hyz
    · simp [keyLe, hxy ▸ hyz]
    · have hxz : x.1 = z.1 := hxy.trans hyz
      simp [keyLe, hxy, hyz, hxz] at h1 h2 ⊢
      exact charsLe_trans _ _ _ h1 h2
    · simp [keyLe, lt_asymm hyz, hyz] at h2
  · simp [keyLe, lt_asymm hxy, hxy] at h1

theorem keyLe_total (x y : ℚ × String) :
    (keyLe x y || keyLe y x) = true := by
  rcases lt_trichotomy x.1 y.1 with hxy | hxy | hxy
  · simp [keyLe, hxy]
  · rcases charsLe_total x.2.data y.2.data with h | h
    · simp [keyLe, hxy, strLe, h]
    · simp [keyLe, hxy.symm, strLe, h]
  · simp [keyLe, hxy]

/-- The normalised weights stored by `TaskRouter.__init__`. -/
structure Weights where
  availability : ℚ
  success_rate : ℚ
  recency : ℚ
  deriving Repr, DecidableEq

/-- A caller-supplied raw weight mapping: each of the three keys of
`DEFAULT_WEIGHTS` may be overridden. -/
structure WeightOverrides where
  availability : Option ℚ
  success_rate : Option ℚ
  recency : Option ℚ
  deriving Repr, DecidableEq

namespace TaskRouter

/-- `sum(w.values())` after merging `DEFAULT_WEIGHTS` (0.50 / 0.30 / 0.20)
with the caller's overrides. -/
def rawTotal (o : WeightOverrides) : ℚ :=
  o.availability.getD (1/2) + o.success_rate.getD (3/10) + o.recency.getD (1/5)

/-- `total = sum(w.values()) or 1.0`: Python's `or` falls back to `1.0`
exactly when the sum is (falsy) zero. -/
def initTotal (o : WeightOverrides) : ℚ :=
  if rawTotal o = 0 then 1 else rawTotal o

/-- `TaskRouter.__init__` from `orchestrator/router.py`: merge the defaults
with the overrides and divide every entry by the total. -/
def init (o : WeightOverrides) : Weights :=
  ⟨o.availability.getD (1/2) / initTotal o,
   o.success_rate.getD (3/10) / initTotal o,
   o.recency.getD (1/5) / initTotal o⟩

/-- `TaskRouter._availability`: the `_AVAILABILITY` status table. -/
def availabilityScore : AgentStatus → ℚ
  | AgentStatus.idle => 1
  | AgentStatus.running => 1/2
  | AgentStatus.busy => 1/2
  | AgentStatus.error => 0
  | AgentStatus.stopped => 0

/-- `TaskRouter._success_rate`: `completed / total` with a neutral 1.0 for an
agent with no history. -/
def successRate (m : AgentMetrics) : ℚ :=
  if 0 < m.tasks_completed + m.tasks_failed then
    (m.tasks_completed : ℚ) / ((m.tasks_completed : ℚ) + (m.tasks_failed : ℚ))
  else 1

/-- `TaskRouter._recency`: `min(age_sec / 60, 1.0)`, and 1.0 for an agent that
has never run a task. -/
def recencyScore (now : ℚ) (m : AgentMetrics) : ℚ :=
  match m.last_task_at with
  | none => 1
  | some t => min ((now - t) / 60) 1

/-- `TaskRouter._score`: the weighted composite. -/
def score (w : Weights) (now : ℚ) (a : AgentState) : ℚ :=
  w.availability * availabilityScore a.status
    + w.success_rate * successRate a.metrics
    + w.recency * recencyScore now a.metrics

/-- The sort key `(-score, agent_id)` built in `TaskRouter.select`. -/
def routeKey (w : Weights) (now : ℚ) (a : AgentState) : ℚ × String :=
  (-(score w now a), a.agent_id)

/-- The comparator induced on agents by the sort key. -/
def agentLe (w : Weights) (now : ℚ) (x y : AgentState) : Bool :=
  keyLe (routeKey w now x) (routeKey w now y)

/-- `TaskRouter.select` from `orchestrator/router.py`: `None` on an empty
list, short-circuit on a singleton, otherwise a stable sort on
`(-score, agent_id)` and the first element. -/
def select (w : Weights) (now : ℚ) (agents : List AgentState) :
    Option AgentState :=
  match agents with
  | [] => none
  | [a] => some a
  | _ => (agents.mergeSort (agentLe w now)).head?

end TaskRouter

/-- Claim C4: the router sub-scores — availability 1.0 for Idle, 0.5 for
Running or Busy, 0.0 for Error or Stopped; success rate
`completed / (completed + failed)` with 1.0 on zero history; recency
`min(seconds_since_last_task / 60, 1.0)` with 1.0 for an agent that has never
run a task. -/
theorem claim_C4 (now : ℚ) (m : AgentMetrics) (t : ℚ) :
    TaskRouter.availabilityScore AgentStatus.idle = 1 ∧
    TaskRouter.availabilityScore AgentStatus.running = 1/2 ∧
    TaskRouter.availabilityScore AgentStatus.busy = 1/2 ∧
    TaskRouter.availabilityScore AgentStatus.error = 0 ∧
    TaskRouter.availabilityScore AgentStatus.stopped = 0 ∧
    (m.tasks_completed + m.tasks_failed = 0 → TaskRouter.successRate m = 1) ∧
    (0 < m.tasks_completed + m.tasks_failed →
      TaskRouter.successRate m
        = (m.tasks_completed : ℚ) / ((m.tasks_completed : ℚ) + (m.tasks_failed : ℚ))) ∧
    (m.last_task_at = none → TaskRouter.recencyScore now m = 1) ∧
    (m.last_task_at = some t →
      TaskRouter.recencyScore now m = min ((now - t) / 60) 1) := by
  refine ⟨rfl, rfl, rfl, rfl, rfl, ?_, ?_, ?_, ?_⟩
  · intro h
    simp [TaskRouter.successRate, h]
  · intro h
    simp [TaskRouter.successRate, h]
  · intro h
    simp [TaskRouter.recencyScore, h]
  · intro h
    simp [TaskRouter.recencyScore, h]

/-- Witness for claim C4 at concrete metrics with history and a last-task
timestamp. -/
theorem claim_C4_witness :
    0 < 2 + 1 ∧
    TaskRouter.successRate ⟨2, 1, some 30⟩ = (2 : ℚ) / ((2 : ℚ) + (1 : ℚ)) ∧
    TaskRouter.recencyScore 45 ⟨2, 1, some 30⟩ = min (((45 : ℚ) - 30) / 60) 1 := by
  have h := claim_C4 45 ⟨2, 1, some 30⟩ 30
  exact ⟨by decide, h.2.2.2.2.2.2.1 (by decide), h.2.2.2.2.2.2.2.2 rfl⟩

/-- Counterexample to claim C5 as stated: with the caller-supplied raw weight
mapping `{"availability": 0, "success_rate": 0, "recency": 0}` the merged sum
is 0, Python's `or 1.0` fallback divides by 1, and the stored weights sum to
0, not 1.0. -/
theorem claim_C5_counterexample :
    ¬ ((TaskRouter.init ⟨some 0, some 0, some 0⟩).availability
        + (TaskRouter.init ⟨some 0, some 0, some 0⟩).success_rate
        + (TaskRouter.init ⟨some 0, some 0, some 0⟩).recency = 1) := by
  norm_num [TaskRouter.init, TaskRouter.initTotal, TaskRouter.rawTotal]

/-- Claim C5 (amended): for every caller-supplied raw weight mapping whose
merged values sum to a nonzero total, the weights stored at construction time
sum to 1.0; and in all cases the composite score of an agent equals
`w_avail·availability + w_success·success_rate + w_recency·recency` under the
stored weights. -/
theorem claim_C5 (o : WeightOverrides) (h : TaskRouter.rawTotal o ≠ 0) :
    (TaskRouter.init o).availability + (TaskRouter.init o).success_rate
      + (TaskRouter.init o).recency = 1 ∧
    ∀ (now : ℚ) (a : AgentState),
      TaskRouter.score (TaskRouter.init o) now a
        = (TaskRouter.init o).availability
            * TaskRouter.availabilityScore a.status
          + (TaskRouter.init o).success_rate
            * TaskRouter.successRate a.metrics
          + (TaskRouter.init o).recency
            * TaskRouter.recencyScore now a.metrics := by
  constructor
  · have ht : TaskRouter.initTotal o = TaskRouter.rawTotal o := by
      simp [TaskRouter.initTotal, h]
    simp only [TaskRouter.init, ht]
    rw [div_add_div_same, div_add_div_same]
    exact div_self h
  · intro now a
    rfl

/-- Witness for claim C5 at the raw mapping `{2, 1, 1}`, whose total 4 is
nonzero. -/
theorem claim_C5_witness :
    TaskRouter.rawTotal ⟨some 2, some 1, some 1⟩ ≠ 0 ∧
    (TaskRouter.init ⟨some 2, some 1, some 1⟩).availability
      + (TaskRouter.init ⟨some 2, some 1, some 1⟩).success_rate
      + (TaskRouter.init ⟨some 2, some 1, some 1⟩).recency = 1 := by
  have hne : TaskRouter.rawTotal ⟨some 2, some 1, some 1⟩ ≠ 0 := by
    norm_num [TaskRouter.rawTotal]
  exact ⟨hne, (claim_C5 ⟨some 2, some 1, some 1⟩ hne).1⟩

/-- Claim C3: `TaskRouter.select` on the empty list returns no agent; on a
singleton it returns that agent; on any non-empty list it returns a candidate
with the highest composite score, score ties broken towards the
lexicographically smaller `agent_id`; and repeated calls under identical
conditions return the same agent. -/
theorem claim_C3 (w : Weights) (now : ℚ) :
    TaskRouter.select w now [] = none ∧
    (∀ a, TaskRouter.select w now [a] = some a) ∧
    ∀ agents, agents ≠ [] →
      ∃ r, TaskRouter.select w now agents = some r ∧ r ∈ agents ∧
        (∀ a ∈ agents,
          TaskRouter.score w now a ≤ TaskRouter.score w now r ∧
          (TaskRouter.score w now a = TaskRouter.score w now r →
            strLe r.agent_id a.agent_id = true)) ∧
        TaskRouter.select w now agents = TaskRouter.select w now agents := by
  refine ⟨rfl, fun a => rfl, ?_⟩
  intro agents hne
  match agents with
  | [] => exact absurd rfl hne
  | [a] =>
    refine ⟨a, rfl, List.mem_singleton_self a, ?_, rfl⟩
    intro x hx
    rw [List.mem_singleton] at hx
    subst hx
    exact ⟨le_refl _, fun _ => strLe_refl _⟩
  | a :: b :: rest =>
    have htrans : ∀ p q r : AgentState, TaskRouter.agentLe w now p q = true →
        TaskRouter.agentLe w now q r = true →
        TaskRouter.agentLe w now p r = true :=
      fun p q r => keyLe_trans _ _ _
    have htotal : ∀ p q : AgentState,
        (TaskRouter.agentLe w now p q || TaskRouter.agentLe w now q p) = true :=
      fun p q => keyLe_total _ _
    have hperm := List.mergeSort_perm (a :: b :: rest) (TaskRouter.agentLe w now)
    have hsorted := List.sorted_mergeSort htrans htotal (a :: b :: rest)
    obtain ⟨r, tl, hrt⟩ : ∃ r tl,
        (a :: b :: rest).mergeSort (TaskRouter.agentLe w now) = r :: tl := by
      cases hms : (a :: b :: rest).mergeSort (TaskRouter.agentLe w now) with
      | nil =>
        have hlen := hperm.length_eq
        rw [hms] at hlen
        simp at hlen
      | cons r tl => exact ⟨r, tl, rfl⟩
    refine ⟨r, ?_, ?_, ?_, rfl⟩
    · show ((a :: b :: rest).mergeSort (TaskRouter.agentLe w now)).head? = some r
      rw [hrt]
      rfl
    · have hr : r ∈ (a :: b :: rest).mergeSort (TaskRouter.agentLe w now) := by
        rw [hrt]
        exact List.mem_cons_self r tl
      exact hperm.subset hr
    · intro x hx
      have hx2 : x ∈ r :: tl := by
        rw [← hrt]
        exact hperm.mem_iff.2 hx
      rw [hrt] at hsorted
      rcases List.mem_cons.mp hx2 with hxr | hxt
      · subst hxr
        exact ⟨le_refl _, fun _ => strLe_refl _⟩
      · have hkey : TaskRouter.agentLe w now r x = true :=
          (List.pairwise_cons.mp hsorted).1 x hxt
        simp only [TaskRouter.agentLe, keyLe, TaskRouter.routeKey] at hkey
        by_cases h1 : -(TaskRouter.score w now r) < -(TaskRouter.score w now x)
        · have hlt : TaskRouter.score w now x < TaskRouter.score w now r :=
            neg_lt_neg_iff.mp h1
          exact ⟨le_of_lt hlt, fun heq => absurd heq (ne_of_lt hlt)⟩
        · by_cases h2 : -(TaskRouter.score w now x) < -(TaskRouter.score w now r)
          · simp [h1, h2] at hkey
          · have heq : TaskRouter.score w now x = TaskRouter.score w now r := by
              have hle1 : -(TaskRouter.score w now x) ≤ -(TaskRouter.score w now r) :=
                not_lt.mp h1
              have hle2 : -(TaskRouter.score w now r) ≤ -(TaskRouter.score w now x) :=
                not_lt.mp h2
              have := le_antisymm hle1 hle2
              exact neg_injective this
            refine ⟨le_of_eq heq, fun _ => ?_⟩
            simp only [h1, h2, if_false] at hkey
            exact hkey

/-- Witness for claim C3 on a concrete two-agent candidate list. -/
theorem claim_C3_witness :
    ([⟨"aa", "t", AgentStatus.idle, ⟨0, 0, none⟩⟩,
      ⟨"ab", "t", AgentStatus.busy, ⟨0, 0, none⟩⟩] : List AgentState) ≠ [] ∧
    ∃ r, TaskRouter.select ⟨1/2, 3/10, 1/5⟩ 0
        [⟨"aa", "t", AgentStatus.idle, ⟨0, 0, none⟩⟩,
         ⟨"ab", "t", AgentStatus.busy, ⟨0, 0, none⟩⟩] = some r ∧
      r ∈ [⟨"aa", "t", AgentStatus.idle, ⟨0, 0, none⟩⟩,
           ⟨"ab", "t", AgentStatus.busy, ⟨0, 0, none⟩⟩] ∧
      (∀ a ∈ [⟨"aa", "t", AgentStatus.idle, ⟨0, 0, none⟩⟩,
              ⟨"ab", "t", AgentStatus.busy, ⟨0, 0, none⟩⟩],
        TaskRouter.score ⟨1/2, 3/10, 1/5⟩ 0 a
          ≤ TaskRouter.score ⟨1/2, 3/10, 1/5⟩ 0 r ∧
        (TaskRouter.score ⟨1/2, 3/10, 1/5⟩ 0 a
            = TaskRouter.score ⟨1/2, 3/10, 1/5⟩ 0 r →
          strLe r.agent_id a.agent_id = true)) ∧
      TaskRouter.select ⟨1/2, 3/10, 1/5⟩ 0
          [⟨"aa", "t", AgentStatus.idle, ⟨0, 0, none⟩⟩,
           ⟨"ab", "t", AgentStatus.busy, ⟨0, 0, none⟩⟩]
        = TaskRouter.select ⟨1/2, 3/10, 1/5⟩ 0
            [⟨"aa", "t", AgentStatus.idle, ⟨0, 0, none⟩⟩,
             ⟨"ab", "t", AgentStatus.busy, ⟨0, 0, none⟩⟩] := by
  refine ⟨by simp, ?_⟩
  exact (claim_C3 ⟨1/2, 3/10, 1/5⟩ 0).2.2
    [⟨"aa", "t", AgentStatus.idle, ⟨0, 0, none⟩⟩,
     ⟨"ab", "t", AgentStatus.busy, ⟨0, 0, none⟩⟩] (by simp)

/-- The inner loop of CPython's `heapq._siftdown(heap, startpos, pos)` (the
bubble-up used by `heappush`): while `pos > startpos`, compare `newitem` with
the parent, moving the parent down while it is larger; finally store `newitem`
at the resting position. -/
def siftdownLoop {τ : Type} (prio : τ → Int) (startpos : Nat) (newitem : τ)
    (heap : List τ) (pos : Nat) : List τ :=
  if h : startpos < pos then
    if prio newitem < prio (heap.getD ((pos - 1) / 2) newitem) then
      siftdownLoop prio startpos newitem
        (heap.set pos (heap.getD ((pos - 1) / 2) newitem)) ((pos - 1) / 2)
    else
      heap.set pos newitem
  else
    heap.set pos newitem
termination_by pos
decreasing_by
  exact Nat.lt_of_le_of_lt (Nat.div_le_self _ 2)
    (Nat.sub_lt (Nat.lt_of_le_of_lt (Nat.zero_le _) h) one_pos)

/-- `heapq.heappush`: append the item and sift it towards the root. -/
def heappush {τ : Type} (prio : τ → Int) (heap : List τ) (item : τ) : List τ :=
  siftdownLoop prio 0 item (heap ++ [item]) heap.length

/-- The child chosen by CPython's `heapq._siftup`: the left child, unless a
right child exists and the left child is not smaller than it. -/
def smallerChild {τ : Type} (prio : τ → Int) (endpos : Nat) (d : τ)
    (heap : List τ) (pos : Nat) : Nat :=
  if 2 * pos + 2 < endpos ∧
      ¬ prio (heap.getD (2 * pos + 1) d) < prio (heap.getD (2 * pos + 2) d) then
    2 * pos + 2
  else
    2 * pos + 1

theorem lt_smallerChild {τ : Type} (prio : τ → Int) (endpos : Nat) (d : τ)
    (heap : List τ) (pos : Nat) : pos < smallerChild prio endpos d heap pos := by
  unfold smallerChild
  split <;> omega

/-- The loop of CPython's `heapq._siftup(heap, pos)`: bubble the hole at
`pos` down to a leaf, moving the smaller child up each step; returns the
updated list and the final hole position. -/
def siftupLoop {τ : Type} (prio : τ → Int) (endpos : Nat) (d : τ)
    (heap : List τ) (pos : Nat) : List τ × Nat :=
  if h : 2 * pos + 1 < endpos then
    siftupLoop prio endpos d
      (heap.set pos (heap.getD (smallerChild prio endpos d heap pos) d))
      (smallerChild prio endpos d heap pos)
  else
    (heap, pos)
termination_by endpos - pos
decreasing_by
  exact Nat.sub_lt_sub_left (Nat.lt_of_le_of_lt (by omega) h)
    (lt_smallerChild prio endpos d heap pos)

/-- CPython's `heapq._siftup(heap, pos)` with `newitem = heap[pos]` passed
explicitly: run the bubble-down loop, store `newitem` at the final hole, then
sift it back up towards `startpos`. -/
def siftup {τ : Type} (prio : τ → Int) (heap : List τ) (startpos : Nat)
    (newitem : τ) : List τ :=
  siftdownLoop prio startpos newitem
    ((siftupLoop prio heap.length newitem heap startpos).1.set
      (siftupLoop prio heap.length newitem heap startpos).2 newitem)
    (siftupLoop prio heap.length newitem heap startpos).2

/-- `heapq.heappop`: remove the last element; if the heap is still non-empty,
return the root, move the last element to the root and sift it up.  `none`
models the `IndexError` on an empty heap (the scheduler never calls it
then). -/
def heappop {τ : Type} (prio : τ → Int) (heap : List τ) :
    Option (τ × List τ) :=
  match heap.getLast? with
  | none => none
  | some lastelt =>
      match heap.dropLast with
      | [] => some (lastelt, [])
      | r0 :: rest =>
          some (r0, siftup prio ((r0 :: rest).set 0 lastelt) 0 lastelt)

/-- `ScheduledTask` from `orchestrator/scheduler.py`.  `@dataclass(order=True)`
with every field except `priority` marked `compare=False`, so `heapq`'s `<`
compares priorities only.  `coro` is the eventual outcome of the scheduled
coroutine. -/
structure ScheduledTask (ε α : Type) where
  priority : Int
  task_id : String
  coro : Except ε α
  scheduled_at : ℚ
  metadata : List (String × String)

/-- The comparison key `heapq` uses on `ScheduledTask` values. -/
def ScheduledTask.prio {ε α : Type} (t : ScheduledTask ε α) : Int :=
  t.priority

/-- `TaskScheduler` state from `orchestrator/scheduler.py`. -/
structure TaskScheduler (ε α : Type) where
  queue : List (ScheduledTask ε α)
  max_concurrent : Nat

namespace TaskScheduler

/-- `TaskScheduler.schedule`: build the `ScheduledTask` and `heappush` it. -/
def schedule {ε α : Type} (s : TaskScheduler ε α) (coro : Except ε α)
    (task_id : String) (priority : Int) (scheduled_at : ℚ)
    (metadata : List (String × String)) : TaskScheduler ε α :=
  let t : ScheduledTask ε α := ⟨priority, task_id, coro, scheduled_at, metadata⟩
  { s with queue := heappush ScheduledTask.prio s.queue t }

/-- `TaskScheduler.run_next`: `None` sentinel on an empty queue, otherwise
pop the root and await its coroutine, returning its result or propagating its
error. -/
def run_next {ε α : Type} (s : TaskScheduler ε α) :
    Except ε (Option α) × TaskScheduler ε α :=
  match heappop ScheduledTask.prio s.queue with
  | none => (Except.ok none, s)
  | some (t, q) =>
      (match t.coro with
       | Except.ok v => Except.ok (some v)
       | Except.error e => Except.error e,
       { s with queue := q })

/-- One `schedule` call taking its arguments from a `ScheduledTask` record. -/
def schedFold {ε α : Type} (s : TaskScheduler ε α) (t : ScheduledTask ε α) :
    TaskScheduler ε α :=
  schedule s t.coro t.task_id t.priority t.scheduled_at t.metadata

/-- A scheduler built by a sequence of `schedule` calls on a fresh
`TaskScheduler()` (default `max_concurrent = 10`). -/
def scheduleAll {ε α : Type} (items : List (ScheduledTask ε α)) :
    TaskScheduler ε α :=
  items.foldl schedFold ⟨[], 10⟩

end TaskScheduler

/-- The binary min-heap shape invariant maintained by `heapq`: every non-root
entry is at least its parent. -/
def HeapInv {τ : Type} (prio : τ → Int) (l : List τ) : Prop :=
  ∀ i : Nat, (hi : i < l.length) → (hp : (i - 1) / 2 < l.length) → 0 < i →
    prio l[(i - 1) / 2] ≤ prio l[i]

theorem siftdownLoop_length {τ : Type} (prio : τ → Int) (startpos : Nat)
    (newitem : τ) : ∀ (pos : Nat) (heap : List τ),
    (siftdownLoop prio startpos newitem heap pos).length = heap.length := by
  intro pos
  induction pos using Nat.strong_induction_on with
  | _ pos ih =>
    intro heap
    rw [siftdownLoop]
    split
    · split
      · rw [ih _ (Nat.lt_of_le_of_lt (Nat.div_le_self _ 2)
          (Nat.sub_lt (by omega) one_pos)), List.length_set]
      · exact List.length_set ..
    · exact List.length_set ..

theorem siftupLoop_length {τ : Type} (prio : τ → Int) (endpos : Nat) (d : τ) :
    ∀ (k pos : Nat) (heap : List τ), endpos - pos ≤ k →
    (siftupLoop prio endpos d heap pos).1.length = heap.length := by
  intro k
  induction k with
  | zero =>
    intro pos heap hk
    rw [siftupLoop]
    split
    · omega
    · rfl
  | succ k ih =>
    intro pos heap hk
    rw [siftupLoop]
    split
    · rw [ih _ _ (by
        have := lt_smallerChild prio endpos d heap pos
        omega), List.length_set]
    · rfl

theorem siftup_length {τ : Type} (prio : τ → Int) (heap : List τ)
    (startpos : Nat) (newitem : τ) :
    (siftup prio heap startpos newitem).length = heap.length := by
  unfold siftup
  rw [siftdownLoop_length, List.length_set,
    siftupLoop_length prio heap.length newitem (heap.length - startpos) startpos heap
      (le_refl _)]


theorem prio_getElem_congr {τ : Type} (prio : τ → Int) (l : List τ)
    (i j : Nat) (hij : i = j) (hi : i < l.length) (hj : j < l.length) :
    prio l[i] = prio l[j] := by
  subst hij
  rfl

/-- During a `siftdownLoop` run with hole `hole`, the heap property holds on
every edge not touching the hole. -/
def SiftA {τ : Type} (prio : τ → Int) (hole : Nat) (l : List τ) : Prop :=
  ∀ i : Nat, (hi : i < l.length) → (hp : (i - 1) / 2 < l.length) → 0 < i →
    i ≠ hole → (i - 1) / 2 ≠ hole →
    prio l[(i - 1) / 2] ≤ prio l[i]

/-- The hole's parent is at most the hole's children (contracting the hole
keeps the heap property). -/
def SiftB {τ : Type} (prio : τ → Int) (hole : Nat) (l : List τ) : Prop :=
  ∀ c : Nat, (hc : c < l.length) → (hg : (hole - 1) / 2 < l.length) →
    (c - 1) / 2 = hole → 0 < hole →
    prio l[(hole - 1) / 2] ≤ prio l[c]

/-- The item being sifted is at most the hole's children. -/
def SiftC {τ : Type} (prio : τ → Int) (newitem : τ) (hole : Nat)
    (l : List τ) : Prop :=
  ∀ c : Nat, (hc : c < l.length) → (c - 1) / 2 = hole → 0 < c →
    prio newitem ≤ prio l[c]

theorem heapInv_set_of_sift {τ : Type} (prio : τ → Int) (newitem : τ)
    (pos : Nat) (heap : List τ) (hpos : pos < heap.length)
    (hA : SiftA prio pos heap) (hC : SiftC prio newitem pos heap)
    (hpar : ∀ (h0 : 0 < pos) (hp : (pos - 1) / 2 < heap.length),
      prio heap[(pos - 1) / 2] ≤ prio newitem) :
    HeapInv prio (heap.set pos newitem) := by
  intro i hi hp h0
  have hi2 : i < heap.length := by rw [List.length_set] at hi; exact hi
  have hp2 : (i - 1) / 2 < heap.length := by rw [List.length_set] at hp; exact hp
  rw [List.getElem_set, List.getElem_set]
  by_cases hip : pos = i
  · subst hip
    rw [if_pos rfl, if_neg (by omega : ¬ pos = (pos - 1) / 2)]
    exact hpar h0 hp2
  · rw [if_neg hip]
    by_cases hparent : pos = (i - 1) / 2
    · subst hparent
      rw [if_pos rfl]
      exact hC i hi2 rfl h0
    · rw [if_neg hparent]
      exact hA i hi2 hp2 h0 (fun he => hip he.symm) (fun he => hparent he.symm)

theorem siftdownLoop_heapInv {τ : Type} (prio : τ → Int) (newitem : τ) :
    ∀ (pos : Nat) (heap : List τ), pos < heap.length →
      SiftA prio pos heap → SiftB prio pos heap →
      SiftC prio newitem pos heap →
      HeapInv prio (siftdownLoop prio 0 newitem heap pos) := by
  intro pos
  induction pos using Nat.strong_induction_on with
  | _ pos ih =>
    intro heap hpos hA hB hC
    rw [siftdownLoop]
    split
    case isFalse h0 =>
      apply heapInv_set_of_sift prio newitem pos heap hpos hA hC
      intro hgt _
      omega
    case isTrue h0 =>
      have hqpos : (pos - 1) / 2 < pos := by omega
      have hq : (pos - 1) / 2 < heap.length := lt_trans hqpos hpos
      have hparent :
          heap.getD ((pos - 1) / 2) newitem = heap[(pos - 1) / 2] :=
        List.getD_eq_getElem heap newitem hq
      rw [hparent]
      split
      case isFalse hlt =>
        apply heapInv_set_of_sift prio newitem pos heap hpos hA hC
        intro _ hp
        exact not_lt.mp hlt
      case isTrue hlt =>
        apply ih ((pos - 1) / 2) hqpos
        · rw [List.length_set]
          exact hq
        · -- SiftA for the moved hole
          intro i hi hp h0i hne1 hne2
          have hi2 : i < heap.length := by rw [List.length_set] at hi; exact hi
          have hp2 : (i - 1) / 2 < heap.length := by
            rw [List.length_set] at hp; exact hp
          rw [List.getElem_set, List.getElem_set]
          by_cases hipos : pos = i
          · exfalso
            apply hne2
            rw [← hipos]
          · rw [if_neg hipos]
            by_cases hpp : pos = (i - 1) / 2
            · rw [if_pos hpp]
              exact hB i hi2 hq hpp.symm h0
            · rw [if_neg hpp]
              exact hA i hi2 hp2 h0i (fun he => hipos he.symm)
                (fun he => hpp he.symm)
        · -- SiftB for the moved hole
          intro c hc hg hcq h0q
          have hc2 : c < heap.length := by rw [List.length_set] at hc; exact hc
          have hg2 : ((pos - 1) / 2 - 1) / 2 < heap.length := by
            rw [List.length_set] at hg; exact hg
          have hcp : (c - 1) / 2 < heap.length := by omega
          rw [List.getElem_set, List.getElem_set,
            if_neg (by omega : ¬ pos = ((pos - 1) / 2 - 1) / 2)]
          have hstep : prio heap[((pos - 1) / 2 - 1) / 2]
              ≤ prio heap[(pos - 1) / 2] :=
            hA ((pos - 1) / 2) hq hg2 h0q (by omega) (by omega)
          by_cases hcpos : pos = c
          · rw [if_pos hcpos]
            exact hstep
          · rw [if_neg hcpos]
            refine le_trans hstep ?_
            rw [← prio_getElem_congr prio heap ((c - 1) / 2) ((pos - 1) / 2)
              hcq hcp hq]
            exact hA c hc2 hcp (by omega) (fun he => hcpos he.symm) (by omega)
        · -- SiftC for the moved hole
          intro c hc hcq h0c
          have hc2 : c < heap.length := by rw [List.length_set] at hc; exact hc
          have hcp : (c - 1) / 2 < heap.length := by omega
          rw [List.getElem_set]
          by_cases hcpos : pos = c
          · rw [if_pos hcpos]
            exact le_of_lt hlt
          · rw [if_neg hcpos]
            have hmid : prio newitem ≤ prio heap[(c - 1) / 2] := by
              rw [prio_getElem_congr prio heap ((c - 1) / 2) ((pos - 1) / 2)
                hcq hcp hq]
              exact le_of_lt hlt
            exact le_trans hmid
              (hA c hc2 hcp h0c (fun he => hcpos he.symm) (by omega))

theorem heappush_heapInv {τ : Type} (prio : τ → Int) (heap : List τ)
    (item : τ) (hinv : HeapInv prio heap) :
    HeapInv prio (heappush prio heap item) := by
  unfold heappush
  apply siftdownLoop_heapInv
  · simp
  · intro i hi hp h0 hne1 hne2
    have hi2 : i < heap.length := by
      simp only [List.length_append, List.length_singleton] at hi
      omega
    have hp2 : (i - 1) / 2 < heap.length := by omega
    rw [List.getElem_append_left hi2, List.getElem_append_left hp2]
    exact hinv i hi2 hp2 h0
  · intro c hc hg hcq h0q
    exfalso
    simp only [List.length_append, List.length_singleton] at hc
    omega
  · intro c hc hcq h0c
    exfalso
    simp only [List.length_append, List.length_singleton] at hc
    omega

theorem heapInv_root_min {τ : Type} (prio : τ → Int) (l : List τ)
    (hinv : HeapInv prio l) (h0 : 0 < l.length) :
    ∀ (i : Nat) (hi : i < l.length), prio l[0] ≤ prio l[i] := by
  intro i
  induction i using Nat.strong_induction_on with
  | _ i ih =>
    intro hi
    rcases Nat.eq_zero_or_pos i with hz | hpos
    · subst hz
      exact le_refl _
    · have hp : (i - 1) / 2 < l.length := by omega
      exact le_trans (ih ((i - 1) / 2) (by omega) hp) (hinv i hi hp hpos)

theorem heapInv_root_min_mem {τ : Type} (prio : τ → Int) (l : List τ)
    (hinv : HeapInv prio l) (h0 : 0 < l.length) :
    ∀ x ∈ l, prio l[0] ≤ prio x := by
  intro x hx
  obtain ⟨⟨i, hi⟩, hget⟩ := List.mem_iff_get.mp hx
  rw [← hget]
  exact heapInv_root_min prio l hinv h0 i hi

/-- The empty heap satisfies the heap invariant. -/
theorem heapInv_nil {τ : Type} (prio : τ → Int) : HeapInv prio [] := by
  intro i hi
  simp at hi

theorem heappush_length {τ : Type} (prio : τ → Int) (heap : List τ)
    (item : τ) : (heappush prio heap item).length = heap.length + 1 := by
  unfold heappush
  rw [siftdownLoop_length]
  simp

/-- `heappop` on a non-empty heap returns the root and shrinks the heap by
one element. -/
theorem heappop_cons {τ : Type} (prio : τ → Int) (x : τ) (xs : List τ) :
    ∃ q, heappop prio (x :: xs) = some (x, q) ∧ q.length = xs.length := by
  rcases List.eq_nil_or_concat xs with hnil | ⟨ys, a, hconcat⟩
  · subst hnil
    exact ⟨[], rfl, rfl⟩
  · rw [List.concat_eq_append] at hconcat
    subst hconcat
    refine ⟨siftup prio ((x :: ys).set 0 a) 0 a, ?_, ?_⟩
    · have h1 : (x :: (ys ++ [a])).getLast? = some a := by
        rw [← List.cons_append]
        exact List.getLast?_concat _
      have h2 : (x :: (ys ++ [a])).dropLast = x :: ys := by
        rw [← List.cons_append]
        exact List.dropLast_concat
      simp only [heappop, h1, h2]
    · rw [siftup_length, List.length_set]
      simp

theorem scheduleAll_fold {ε α : Type} :
    ∀ (items : List (ScheduledTask ε α)) (s : TaskScheduler ε α),
      (items.foldl TaskScheduler.schedFold s).queue.length
          = s.queue.length + items.length ∧
      (HeapInv ScheduledTask.prio s.queue →
        HeapInv ScheduledTask.prio
          (items.foldl TaskScheduler.schedFold s).queue) := by
  intro items
  induction items with
  | nil =>
    intro s
    exact ⟨rfl, fun h => h⟩
  | cons t ts ih =>
    intro s
    rw [List.foldl_cons]
    have hq : (TaskScheduler.schedFold s t).queue
        = heappush ScheduledTask.prio s.queue
            ⟨t.priority, t.task_id, t.coro, t.scheduled_at, t.metadata⟩ := rfl
    constructor
    · rw [(ih (TaskScheduler.schedFold s t)).1, hq, heappush_length]
      simp [List.length_cons]
      omega
    · intro hinv
      apply (ih (TaskScheduler.schedFold s t)).2
      rw [hq]
      exact heappush_heapInv _ _ _ hinv

/-- Claim C8: `TaskScheduler.run_next` on an empty queue returns the
`None` sentinel without raising; on a scheduler built by any non-empty
sequence of `schedule` calls it pops (removes) a pending item whose priority
value is lowest among all pending items and returns that item's result or
propagates its error. -/
theorem claim_C8 {ε α : Type} (items : List (ScheduledTask ε α)) :
    (∀ s : TaskScheduler ε α, s.queue = [] →
      TaskScheduler.run_next s = (Except.ok none, s)) ∧
    (items ≠ [] →
      ∃ t q,
        t ∈ (TaskScheduler.scheduleAll items).queue ∧
        (∀ u ∈ (TaskScheduler.scheduleAll items).queue,
          t.priority ≤ u.priority) ∧
        (∀ v : α, t.coro = Except.ok v →
          (TaskScheduler.run_next (TaskScheduler.scheduleAll items)).1
            = Except.ok (some v)) ∧
        (∀ e : ε, t.coro = Except.error e →
          (TaskScheduler.run_next (TaskScheduler.scheduleAll items)).1
            = Except.error e) ∧
        (TaskScheduler.run_next (TaskScheduler.scheduleAll items)).2.queue
          = q ∧
        q.length = (TaskScheduler.scheduleAll items).queue.length - 1 ∧
        (TaskScheduler.scheduleAll items).queue.length = items.length) := by
  constructor
  · intro s hq
    simp [TaskScheduler.run_next, hq, heappop]
  · intro hne
    have hlen := (scheduleAll_fold items ⟨[], 10⟩).1
    have hinv := (scheduleAll_fold items ⟨[], 10⟩).2 (heapInv_nil _)
    cases hqeq : (TaskScheduler.scheduleAll items).queue with
    | nil =>
      exfalso
      unfold TaskScheduler.scheduleAll at hqeq
      rw [hqeq] at hlen
      simp at hlen
      exact hne (List.length_eq_zero.mp hlen.symm)
    | cons q0 qs =>
      obtain ⟨q, hpop, hqlen⟩ := heappop_cons ScheduledTask.prio q0 qs
      have hinv2 : HeapInv ScheduledTask.prio (q0 :: qs) := by
        unfold TaskScheduler.scheduleAll at hqeq
        rw [hqeq] at hinv
        exact hinv
      refine ⟨q0, q, List.mem_cons_self q0 qs, ?_, ?_, ?_, ?_, ?_, ?_⟩
      · intro u hu
        exact heapInv_root_min_mem ScheduledTask.prio (q0 :: qs) hinv2
          (by simp) u hu
      · intro v hv
        simp only [TaskScheduler.run_next, hqeq, hpop, hv]
      · intro e he
        simp only [TaskScheduler.run_next, hqeq, hpop, he]
      · simp only [TaskScheduler.run_next, hqeq, hpop]
      · simp [hqlen]
      · have h3 : (TaskScheduler.scheduleAll items).queue.length
            = items.length := by
          unfold TaskScheduler.scheduleAll
          rw [hlen]
          simp
        rw [← hqeq]
        exact h3

/-- Witness for claim C8: the scenario of scheduling priority 5 then
priority 1. -/
theorem claim_C8_witness :
    ([⟨5, "t5", Except.ok 55, 0, []⟩, ⟨1, "t1", Except.ok 11, 0, []⟩] :
        List (ScheduledTask PyErr Nat)) ≠ [] ∧
    (∃ t q,
      t ∈ (TaskScheduler.scheduleAll
        [⟨5, "t5", Except.ok 55, 0, []⟩,
         (⟨1, "t1", Except.ok 11, 0, []⟩ : ScheduledTask PyErr Nat)]).queue ∧
      (∀ u ∈ (TaskScheduler.scheduleAll
          [⟨5, "t5", Except.ok 55, 0, []⟩,
           (⟨1, "t1", Except.ok 11, 0, []⟩ : ScheduledTask PyErr Nat)]).queue,
        t.priority ≤ u.priority) ∧
      (∀ v : Nat, t.coro = Except.ok v →
        (TaskScheduler.run_next (TaskScheduler.scheduleAll
          [⟨5, "t5", Except.ok 55, 0, []⟩,
           (⟨1, "t1", Except.ok 11, 0, []⟩ : ScheduledTask PyErr Nat)])).1
          = Except.ok (some v)) ∧
      (∀ e : PyErr, t.coro = Except.error e →
        (TaskScheduler.run_next (TaskScheduler.scheduleAll
          [⟨5, "t5", Except.ok 55, 0, []⟩,
           (⟨1, "t1", Except.ok 11, 0, []⟩ : ScheduledTask PyErr Nat)])).1
          = Except.error e) ∧
      (TaskScheduler.run_next (TaskScheduler.scheduleAll
          [⟨5, "t5", Except.ok 55, 0, []⟩,
           (⟨1, "t1", Except.ok 11, 0, []⟩ : ScheduledTask PyErr Nat)])).2.queue
        = q ∧
      q.length
        = (TaskScheduler.scheduleAll
            [⟨5, "t5", Except.ok 55, 0, []⟩,
             (⟨1, "t1", Except.ok 11, 0, []⟩ :
                ScheduledTask PyErr Nat)]).queue.length - 1 ∧
      (TaskScheduler.scheduleAll
          [⟨5, "t5", Except.ok 55, 0, []⟩,
           (⟨1, "t1", Except.ok 11, 0, []⟩ :
              ScheduledTask PyErr Nat)]).queue.length = 2) := by
  refine ⟨by simp, ?_⟩
  exact (claim_C8
    [⟨5, "t5", Except.ok 55, 0, []⟩,
     (⟨1, "t1", Except.ok 11, 0, []⟩ : ScheduledTask PyErr Nat)]).2 (by simp)

/-- A task-result record as written by `Orchestrator.dispatch_task`
(`ρ` is the type of agent results). -/
structure TaskRecord (ρ : Type) where
  task_id : String
  agent_id : String
  task : String
  result : ρ
  timestamp : ℚ

/-- An event emitted on the orchestrator's bus.  `_emit_event` invokes every
listener registered for the event's name exactly once per emission (listener
exceptions are caught and logged, never propagated), so the emission log
determines how many times any given listener runs. -/
inductive OrchEvent (ρ : Type) where
  | device_registered (device_id : String)
  | device_unregistered (device_id : String)
  | agent_registered (agent_id : String) (agent_type : String)
  | task_dispatched (task_id : String) (agent_id : String) (task : String)
      (device_id : Option String)
  | task_completed (r : TaskRecord ρ)

/-- The mutable state of an `Orchestrator` instance: the agent and device
registries (insertion-ordered maps), the task-result map, and the log of
event emissions. -/
structure Orchestrator (ρ : Type) where
  agents : List (String × AgentState)
  devices : List (String × Device)
  task_results : List (String × TaskRecord ρ)
  events : List (OrchEvent ρ)

/-- The number of entries of an association list holding a given key. -/
def countKey {β : Type} (l : List (String × β)) (k : String) : Nat :=
  (l.filter fun p => p.1 == k).length

namespace Orchestrator

/-- `Orchestrator.register_device` from `orchestrator/core.py`: a duplicate
id logs a warning and returns early (no insertion, no event); a fresh id is
inserted and one `device_registered` event is emitted. -/
def register_device {ρ : Type} (o : Orchestrator ρ) (d : Device) :
    String × Orchestrator ρ :=
  if (o.devices.lookup d.device_id).isSome then
    (d.device_id, o)
  else
    (d.device_id,
      { o with
          devices := o.devices ++ [(d.device_id, d)],
          events := o.events ++ [OrchEvent.device_registered d.device_id] })

/-- Replace the state of the agent registered under `k` (the registry keeps
the same object; `execute` mutated it in place). -/
def updateAgent (l : List (String × AgentState)) (k : String)
    (v : AgentState) : List (String × AgentState) :=
  l.map fun p => if p.1 = k then (k, v) else p

/-- `Orchestrator.dispatch_task` from `orchestrator/core.py`: unknown agent
id raises `ValueError` before anything is written; otherwise a
`task_dispatched` event is emitted, the agent executes (its state update
persists either way), and only on success is the task-result entry written,
the `task_completed` event emitted and the task id returned. -/
def dispatch_task {ρ : Type} (o : Orchestrator ρ) (agent_id : String)
    (task : String) (params : List (String × String))
    (device_id : Option String) (task_id : String) (now : ℚ)
    (handler : Except PyErr ρ) : Except PyErr String × Orchestrator ρ :=
  match o.agents.lookup agent_id with
  | none => (Except.error (PyErr.valueError ("Unknown agent: " ++ agent_id)), o)
  | some a =>
      match AgentBase.execute a now handler with
      | (Except.error e, a2) =>
          (Except.error e,
            { o with
                agents := updateAgent o.agents agent_id a2,
                events := o.events
                  ++ [OrchEvent.task_dispatched task_id agent_id task device_id] })
      | (Except.ok v, a2) =>
          (Except.ok task_id,
            { o with
                agents := updateAgent o.agents agent_id a2,
                task_results := o.task_results
                  ++ [(task_id, ⟨task_id, agent_id, task, v, now⟩)],
                events := o.events
                  ++ [OrchEvent.task_dispatched task_id agent_id task device_id,
                      OrchEvent.task_completed ⟨task_id, agent_id, task, v, now⟩] })

end Orchestrator

/-- Claim C6: dispatching to an agent id absent from the registry raises
`ValueError("Unknown agent: ...")` and leaves the task-result map unchanged
(in fact the whole orchestrator state), for every task, params and device_id
argument. -/
theorem claim_C6 {ρ : Type} (o : Orchestrator ρ) (agent_id task : String)
    (params : List (String × String)) (device_id : Option String)
    (task_id : String) (now : ℚ) (handler : Except PyErr ρ)
    (hunk : o.agents.lookup agent_id = none) :
    (Orchestrator.dispatch_task o agent_id task params device_id task_id now
        handler).1
      = Except.error (PyErr.valueError ("Unknown agent: " ++ agent_id)) ∧
    (Orchestrator.dispatch_task o agent_id task params device_id task_id now
        handler).2.task_results = o.task_results ∧
    (Orchestrator.dispatch_task o agent_id task params device_id task_id now
        handler).2 = o := by
  refine ⟨?_, ?_, ?_⟩ <;> simp [Orchestrator.dispatch_task, hunk]

/-- Witness for claim C6 on an orchestrator with an empty agent registry. -/
theorem claim_C6_witness :
    ((⟨[], [], [], []⟩ : Orchestrator Nat).agents.lookup "ghost" = none) ∧
    (Orchestrator.dispatch_task (⟨[], [], [], []⟩ : Orchestrator Nat) "ghost"
        "scan" [] none "tid" 0 (Except.ok 7)).1
      = Except.error (PyErr.valueError ("Unknown agent: " ++ "ghost")) := by
  exact ⟨rfl,
    (claim_C6 (⟨[], [], [], []⟩ : Orchestrator Nat) "ghost" "scan" [] none
      "tid" 0 (Except.ok 7) rfl).1⟩

/-- Claim C10: when the registered agent's `execute` raises, the exception
propagates synchronously out of `dispatch_task`, the task-result map is left
unchanged, and the event log gains exactly the `task_dispatched` event — no
`task_completed` event is emitted (while the agent's own failure bookkeeping
from C2 persists in the registry). -/
theorem claim_C10 {ρ : Type} (o : Orchestrator ρ) (agent_id task : String)
    (params : List (String × String)) (device_id : Option String)
    (task_id : String) (now : ℚ) (e : PyErr) (a : AgentState)
    (hfound : o.agents.lookup agent_id = some a) :
    (Orchestrator.dispatch_task o agent_id task params device_id task_id now
        (Except.error e)).1 = Except.error e ∧
    (Orchestrator.dispatch_task o agent_id task params device_id task_id now
        (Except.error e)).2.task_results = o.task_results ∧
    (Orchestrator.dispatch_task o agent_id task params device_id task_id now
        (Except.error e)).2.events
      = o.events
        ++ [OrchEvent.task_dispatched task_id agent_id task device_id] := by
  refine ⟨?_, ?_, ?_⟩ <;>
    simp [Orchestrator.dispatch_task, hfound, AgentBase.execute]

/-- Witness for claim C10 on an orchestrator holding one registered agent
whose handler raises. -/
theorem claim_C10_witness :
    ((⟨[("a1", ⟨"a1", "frequency_agent", AgentStatus.idle, ⟨0, 0, none⟩⟩)],
        [], [], []⟩ : Orchestrator Nat).agents.lookup "a1"
      = some ⟨"a1", "frequency_agent", AgentStatus.idle, ⟨0, 0, none⟩⟩) ∧
    (Orchestrator.dispatch_task
        (⟨[("a1", ⟨"a1", "frequency_agent", AgentStatus.idle, ⟨0, 0, none⟩⟩)],
          [], [], []⟩ : Orchestrator Nat) "a1" "lock" [] none "tid" 3
        (Except.error (PyErr.valueError "boom"))).1
      = Except.error (PyErr.valueError "boom") ∧
    (Orchestrator.dispatch_task
        (⟨[("a1", ⟨"a1", "frequency_agent", AgentStatus.idle, ⟨0, 0, none⟩⟩)],
          [], [], []⟩ : Orchestrator Nat) "a1" "lock" [] none "tid" 3
        (Except.error (PyErr.valueError "boom"))).2.task_results = [] := by
  have h := claim_C10
    (⟨[("a1", ⟨"a1", "frequency_agent", AgentStatus.idle, ⟨0, 0, none⟩⟩)],
      [], [], []⟩ : Orchestrator Nat) "a1" "lock" [] none "tid" 3
    (PyErr.valueError "boom")
    ⟨"a1", "frequency_agent", AgentStatus.idle, ⟨0, 0, none⟩⟩ rfl
  exact ⟨rfl, h.1, h.2.1⟩

/-- Counterexample to claim C7 as stated: registering the same device twice
invokes a `device_registered` listener only once, not once per call — the
duplicate call returns early without emitting, so the listener sees zero
invocations for it. -/
theorem claim_C7_counterexample :
    ((Orchestrator.register_device
        ((Orchestrator.register_device (⟨[], [], [], []⟩ : Orchestrator Nat)
            ⟨"d1", "node", none, none, [], DeviceStatus.unknown, "0.0.0", 0,
              none, none, []⟩).2)
        ⟨"d1", "node", none, none, [], DeviceStatus.unknown, "0.0.0", 0,
          none, none, []⟩).2.events.length
      = (Orchestrator.register_device (⟨[], [], [], []⟩ : Orchestrator Nat)
          ⟨"d1", "node", none, none, [], DeviceStatus.unknown, "0.0.0", 0,
            none, none, []⟩).2.events.length) ∧
    (Orchestrator.register_device (⟨[], [], [], []⟩ : Orchestrator Nat)
        ⟨"d1", "node", none, none, [], DeviceStatus.unknown, "0.0.0", 0,
          none, none, []⟩).2.events.length = 1 := by
  exact ⟨rfl, rfl⟩

/-- Claim C7 (amended): a `register_device` call with a fresh device id emits
exactly one `device_registered` event carrying that device's id (so each
listener registered for it runs exactly once for that call), and leaves
exactly one registry entry for the id; a duplicate call is a warning-logging
no-op that leaves the state — registry and event log — unchanged, so
listeners are not invoked for it. -/
theorem claim_C7 {ρ : Type} (o : Orchestrator ρ) (d : Device) :
    (o.devices.lookup d.device_id = none →
      (Orchestrator.register_device o d).2.events
        = o.events ++ [OrchEvent.device_registered d.device_id] ∧
      (Orchestrator.register_device o d).2.devices
        = o.devices ++ [(d.device_id, d)] ∧
      (countKey o.devices d.device_id = 0 →
        countKey (Orchestrator.register_device o d).2.devices d.device_id
          = 1)) ∧
    (o.devices.lookup d.device_id ≠ none →
      (Orchestrator.register_device o d).2 = o) := by
  constructor
  · intro hlk
    have hns : (o.devices.lookup d.device_id).isSome = false := by
      rw [hlk]
      rfl
    refine ⟨?_, ?_, ?_⟩
    · simp [Orchestrator.register_device, hns]
    · simp [Orchestrator.register_device, hns]
    · intro h0
      simp only [Orchestrator.register_device, hns, Bool.false_eq_true,
        if_false, countKey, List.filter_append] at h0 ⊢
      simp [h0]
  · intro hlk
    have hs : (o.devices.lookup d.device_id).isSome = true :=
      Option.isSome_iff_ne_none.mpr hlk
    simp [Orchestrator.register_device, hs]

/-- Witness for claim C7 at a concrete fresh registration followed by a
duplicate registration. -/
theorem claim_C7_witness :
    (([] : List (String × Device)).lookup "d1" = none) ∧
    (Orchestrator.register_device (⟨[], [], [], []⟩ : Orchestrator Nat)
        ⟨"d1", "node", none, none, [], DeviceStatus.unknown, "0.0.0", 0,
          none, none, []⟩).2.events
      = [OrchEvent.device_registered "d1"] ∧
    countKey
        (Orchestrator.register_device (⟨[], [], [], []⟩ : Orchestrator Nat)
          ⟨"d1", "node", none, none, [], DeviceStatus.unknown, "0.0.0", 0,
            none, none, []⟩).2.devices "d1" = 1 := by
  have h := (claim_C7 (⟨[], [], [], []⟩ : Orchestrator Nat)
    ⟨"d1", "node", none, none, [], DeviceStatus.unknown, "0.0.0", 0,
      none, none, []⟩).1 rfl
  exact ⟨rfl, h.1, h.2.2 rfl⟩

/-- Concrete evaluation of the scenario in the scheduler contract: after
scheduling a priority-5 item and then a priority-1 item, `run_next` executes
the priority-1 item and returns its result. -/
theorem run_next_min_priority_scenario :
    (TaskScheduler.run_next (TaskScheduler.scheduleAll
      ([⟨5, "t5", Except.ok 55, 0, []⟩, ⟨1, "t1", Except.ok 11, 0, []⟩] :
        List (ScheduledTask PyErr Nat)))).1 = Except.ok (some 11) := by
  have h1 : heappush ScheduledTask.prio ([] : List (ScheduledTask PyErr Nat))
      ⟨5, "t5", Except.ok 55, 0, []⟩ = [⟨5, "t5", Except.ok 55, 0, []⟩] := by
    rw [heappush, siftdownLoop]
    rfl
  have h2 : heappush ScheduledTask.prio [⟨5, "t5", Except.ok 55, 0, []⟩]
      (⟨1, "t1", Except.ok 11, 0, []⟩ : ScheduledTask PyErr Nat)
      = [⟨1, "t1", Except.ok 11, 0, []⟩, ⟨5, "t5", Except.ok 55, 0, []⟩] := by
    rw [heappush, siftdownLoop]
    simp [ScheduledTask.prio]
    rw [siftdownLoop]
    rfl
  have h3 : TaskScheduler.scheduleAll
      ([⟨5, "t5", Except.ok 55, 0, []⟩, ⟨1, "t1", Except.ok 11, 0, []⟩] :
        List (ScheduledTask PyErr Nat))
      = ⟨[⟨1, "t1", Except.ok 11, 0, []⟩, ⟨5, "t5", Except.ok 55, 0, []⟩],
         10⟩ := by
    show TaskScheduler.mk
        (heappush ScheduledTask.prio
          (heappush ScheduledTask.prio [] ⟨5, "t5", Except.ok 55, 0, []⟩)
          ⟨1, "t1", Except.ok 11, 0, []⟩) 10 = _
    rw [h1, h2]
  rw [h3, TaskScheduler.run_next]
  have h4 : heappop ScheduledTask.prio
      ([⟨1, "t1", Except.ok 11, 0, []⟩, ⟨5, "t5", Except.ok 55, 0, []⟩] :
        List (ScheduledTask PyErr Nat))
      = some (⟨1, "t1", Except.ok 11, 0, []⟩,
          siftup ScheduledTask.prio [⟨5, "t5", Except.ok 55, 0, []⟩] 0
            ⟨5, "t5", Except.ok 55, 0, []⟩) := rfl
  rw [h4]
